import Mathlib

/-!
Verification of the user CRUD service (golang-serverless).

Shallow embedding of the Go sources:
  * `validators.IsEmailValid`  (pkg/validators/is_email_valid.go)
  * `user.FetchUser`, `user.FetchUsers`, `user.CreateUser`,
    `user.UpdateUser`, `user.DeleteUser`  (pkg/user/user.go)
  * `handlers.GetUser` etc. and `apiResponse`  (pkg/handlers)
  * `handler` (the method router in cmd/main.go)

Modelling choices, each noted at the definition it concerns:
  * The DynamoDB table is an association list keyed by the email string;
    the DynamoDB client is modelled by a `Faults` record that says which
    kind of store call fails (error injection).  Operations additionally
    return the list of store calls they issued, so that "performs no
    store write" is directly statable.
  * `json.Unmarshal` of a request body into a `User` is abstracted by the
    `Body` type: a body either decodes to some user or fails to decode.
  * The Go regular expression in `IsEmailValid` is compiled by hand into
    a decision procedure (`rxEmailMatches`); since neither the local-part
    character class nor the domain classes contain the characters `@`
    (resp. `.`), a matching string factors uniquely at those separators,
    so splitting at them is a faithful compilation of the anchored regex.
-/

/-- User entity (pkg/user/user.go): `Email`, `FirstName`, `LastName`,
serialized with dynamodb attribute names `email`, `firstname`, `lastname`. -/
structure User where
  email : String
  firstName : String
  lastName : String
deriving DecidableEq

/-- A DynamoDB attribute value.  The service only ever writes string
attributes; a non-string attribute (`N`) in a stored item is what makes
`dynamodbattribute.UnmarshalMap` into the string-typed `User` fail. -/
inductive AttrValue where
  | S (s : String)
  | N (n : String)
deriving DecidableEq

/-- A DynamoDB item: attribute name to attribute value. -/
abbrev Item := List (String × AttrValue)

/-- The DynamoDB table: items keyed by the `email` partition key. -/
abbrev Table := List (String × Item)

/-- Error injection for the DynamoDB client: which kind of call fails.
This stands for the environment (network, permissions, ...), not for the
table contents. -/
structure Faults where
  getErr : Bool
  scanErr : Bool
  putErr : Bool
  deleteErr : Bool
deriving DecidableEq

/-- The fault-free client behaviour. -/
def noFaults : Faults := ⟨false, false, false, false⟩

/-- One call issued against the DynamoDB client. -/
inductive StoreCall where
  | getItem (key : String)
  | scan
  | putItem (item : Item)
  | deleteItem (key : String)
deriving DecidableEq

/-- Model of `dynaClient.GetItem`: on a missing key DynamoDB returns an empty item
(`result.Item` is nil), not an error. -/
def dynaGetItem (f : Faults) (tbl : Table) (key : String) : Except Unit Item :=
  if f.getErr then Except.error () else Except.ok ((tbl.lookup key).getD [])

/-- Model of `dynaClient.Scan`: returns every item of the table. -/
def dynaScan (f : Faults) (tbl : Table) : Except Unit (List Item) :=
  if f.scanErr then Except.error () else Except.ok (tbl.map (·.2))

/-- The partition key of an item, as DynamoDB extracts it from the
`email` attribute on a put. -/
def itemKey (item : Item) : String :=
  match item.lookup "email" with
  | some (AttrValue.S s) => s
  | _ => ""

/-- Model of `dynaClient.PutItem`: an unconditional upsert keyed by the item's
`email` attribute. -/
def dynaPutItem (f : Faults) (tbl : Table) (item : Item) : Except Unit Table :=
  if f.putErr then Except.error ()
  else Except.ok ((itemKey item, item) :: tbl.eraseP (fun p => p.1 == itemKey item))

/-- Model of `dynaClient.DeleteItem`: deleting an absent key is not an error. -/
def dynaDeleteItem (f : Faults) (tbl : Table) (key : String) : Except Unit Table :=
  if f.deleteErr then Except.error ()
  else Except.ok (tbl.eraseP (fun p => p.1 == key))

/-- Model of `dynamodbattribute.MarshalMap` specialised to `User`: a struct of
strings always marshals, to three string attributes. -/
def MarshalMap (u : User) : Item :=
  [("email", AttrValue.S u.email), ("firstname", AttrValue.S u.firstName),
    ("lastname", AttrValue.S u.lastName)]

/-- Reading one attribute during unmarshalling: a missing attribute
yields the zero value `""`, a non-string attribute is a type-mismatch
error, as in `dynamodbattribute`. -/
def attrToString : Option AttrValue → Except Unit String
  | none => Except.ok ""
  | some (AttrValue.S s) => Except.ok s
  | some (AttrValue.N _) => Except.error ()

/-- Model of `dynamodbattribute.UnmarshalMap` specialised to `User`. -/
def UnmarshalMap (item : Item) : Except Unit User := do
  let e ← attrToString (item.lookup "email")
  let fn ← attrToString (item.lookup "firstname")
  let ln ← attrToString (item.lookup "lastname")
  return ⟨e, fn, ln⟩

/-- Model of `dynamodbattribute.UnmarshalListOfMaps` specialised to `User`. -/
def UnmarshalListOfMaps (items : List Item) : Except Unit (List User) :=
  items.mapM UnmarshalMap

/-- A request body: `json.Unmarshal` into `User` is abstracted as either
decoding to some user or failing. -/
inductive Body where
  | valid (u : User)
  | malformed
deriving DecidableEq

/-- Model of `json.Unmarshal([]byte(req.Body), &newUser)`. -/
def jsonUnmarshalUser : Body → Except Unit User
  | Body.valid u => Except.ok u
  | Body.malformed => Except.error ()

/-- The parts of `events.APIGatewayProxyRequest` the service reads. -/
structure APIGatewayProxyRequest where
  httpMethod : String
  queryStringParameters : List (String × String)
  body : Body
deriving DecidableEq

/-- Model of Go map indexing, where a missing key gives the zero value `""` when absent. -/
def mapGet (m : List (String × String)) (k : String) : String :=
  (m.lookup k).getD ""

/-- The JSON value `apiResponse` serialises into the response body. -/
inductive RespBody where
  | err (msg : String)
  | user (u : User)
  | users (us : List User)
  | str (s : String)
deriving DecidableEq

/-- The parts of `events.APIGatewayProxyResponse` the service sets
(the Content-Type header is a constant and is omitted). -/
structure APIGatewayProxyResponse where
  statusCode : Nat
  body : RespBody
deriving DecidableEq

namespace http

/-- Constant `http.StatusOK`. -/
def StatusOK : Nat := 200

/-- Constant `http.StatusCreated`. -/
def StatusCreated : Nat := 201

/-- Constant `http.StatusBadRequest`. -/
def StatusBadRequest : Nat := 400

/-- Constant `http.StatusMethodNotAllowed`. -/
def StatusMethodNotAllowed : Nat := 405

end http

namespace validators

/-- Membership test for the local-part character class of the regex in
is_email_valid.go, written with code points for the quote and backquote
characters. -/
def isLocalChar (c : Char) : Bool :=
  c.isAlphanum ||
    c ∈ ['.', '!', '#', '$', '%', '&', Char.ofNat 39, '*', '+', '/', '=', '?',
          '^', '_', Char.ofNat 96, Char.ofNat 123, '|', Char.ofNat 125, '~', '-']

/-- Membership test for the domain character class `[a-zA-Z0-9-]`. -/
def isLabelChar (c : Char) : Bool :=
  c.isAlphanum || c == '-'

/-- Decision procedure for one domain label of the regex,
`[a-zA-Z0-9](?:[a-zA-Z0-9-]{0,61}[a-zA-Z0-9])?`: a leading alphanumeric
character, optionally followed by up to 61 label characters and a final
alphanumeric character. -/
def labelMatches (l : List Char) : Bool :=
  match l with
  | [] => false
  | c :: rest =>
    c.isAlphanum &&
      (match rest with
       | [] => true
       | _ =>
         decide (rest.length ≤ 62) && rest.dropLast.all isLabelChar
           && (rest.getLastD c).isAlphanum)

/-- Decision procedure for the anchored regex `rxEmail` of
is_email_valid.go.  A matching string factors uniquely at its single `@`
(the character occurs in neither character class), into a local part of
1 to 64 local characters and a dot-separated list of domain labels (no
label contains a dot). -/
def rxEmailMatches (s : List Char) : Bool :=
  match s.splitOn '@' with
  | [localPart, domain] =>
    (decide (1 ≤ localPart.length) && decide (localPart.length ≤ 64)
        && localPart.all isLocalChar)
      && (domain.splitOn '.').all labelMatches
  | _ => false

/-- Translation of `IsEmailValid` (pkg/validators/is_email_valid.go):
length between 3 and 254 and a match of `rxEmail`.  Go's `len` counts
bytes while `String.length` counts characters; the two can only differ
on strings containing a non-ASCII character, on which the regex match
fails anyway, so on every input the two readings return the same value. -/
def IsEmailValid (email : String) : Bool :=
  if email.length < 3 || email.length > 254 || !(rxEmailMatches email.data) then
    false
  else
    true

/-- Rendering of the claimed domain-label shape, for comparison with
`labelMatches`.  This follows the specification's words — 1 to 63
characters drawn from alphanumerics and internal hyphens, with no
leading or trailing hyphen — not the source. -/
def specLabelOk (l : List Char) : Bool :=
  decide (1 ≤ l.length) && decide (l.length ≤ 63)
    && l.all isLabelChar
    && (l.headD '-') != '-' && (l.getLastD '-') != '-'

end validators

namespace user

/-- Error string `ErrorFailedToFetchRecord` of pkg/user/user.go. -/
def ErrorFailedToFetchRecord : String := "failed to fetch record from dynamodb"

/-- Error string `ErrorFailedToUnmarshalRecord` of pkg/user/user.go. -/
def ErrorFailedToUnmarshalRecord : String :=
  "failed to unmarshal record fetched from dynamodb"

/-- Error string `ErrorInvalidUserData` of pkg/user/user.go. -/
def ErrorInvalidUserData : String := "invalid user data"

/-- Error string `ErrorInvalidEmail` of pkg/user/user.go. -/
def ErrorInvalidEmail : String := "invalid email"

/-- Error string `ErrorCouldNotMarshalItem` of pkg/user/user.go,
built with the code point of the quote character. -/
def ErrorCouldNotMarshalItem : String :=
  "couldn" ++ String.mk [Char.ofNat 39] ++ "t marshal the item"

/-- Error string `ErrorCouldNotDeleteItem` of pkg/user/user.go. -/
def ErrorCouldNotDeleteItem : String :=
  "couldn" ++ String.mk [Char.ofNat 39] ++ "t delete the item"

/-- Error string `ErrorCouldNotDynamoPutItem` of pkg/user/user.go. -/
def ErrorCouldNotDynamoPutItem : String := "could not dynamo put item"

/-- Error string `ErrorUserAlreadyExists` of pkg/user/user.go. -/
def ErrorUserAlreadyExists : String := "user already exists"

/-- Error string `ErrorUserDoesNotExist` of pkg/user/user.go. -/
def ErrorUserDoesNotExist : String :=
  "user doesn" ++ String.mk [Char.ofNat 39] ++ "t exist"

/-- Translation of `user.FetchUser`: a `GetItem` call, then
`UnmarshalMap` into a `User`.  Returns the Go result (`*User, error` as
`Except`) together with the store calls issued; the table is read-only
here. -/
def FetchUser (f : Faults) (email tableName : String) (tbl : Table) :
    Except String User × List StoreCall :=
  match dynaGetItem f tbl email with
  | Except.error _ => (Except.error ErrorFailedToFetchRecord, [StoreCall.getItem email])
  | Except.ok fetchedItem =>
    match UnmarshalMap fetchedItem with
    | Except.error _ =>
      (Except.error ErrorFailedToUnmarshalRecord, [StoreCall.getItem email])
    | Except.ok item => (Except.ok item, [StoreCall.getItem email])

/-- Translation of `user.FetchUsers`: a `Scan` call, then
`UnmarshalListOfMaps`. -/
def FetchUsers (f : Faults) (tableName : String) (tbl : Table) :
    Except String (List User) × List StoreCall :=
  match dynaScan f tbl with
  | Except.error _ => (Except.error ErrorFailedToFetchRecord, [StoreCall.scan])
  | Except.ok scanned =>
    match UnmarshalListOfMaps scanned with
    | Except.error _ => (Except.error ErrorFailedToUnmarshalRecord, [StoreCall.scan])
    | Except.ok items => (Except.ok items, [StoreCall.scan])

/-- Translation of `user.CreateUser`.  The fetch error of the existence
check is discarded (`currUser, _ := FetchUser(...)`); the guard
`currUser != nil && len(currUser.Email) != 0` is the boolean
`currUserExists` (a nil `currUser`, i.e. a failed fetch, makes it
false).  `dynamodbattribute.MarshalMap` of a struct of strings cannot
fail, so the `ErrorCouldNotMarshalItem` branch of the source is
unreachable in the model. -/
def CreateUser (f : Faults) (req : APIGatewayProxyRequest) (tableName : String)
    (tbl : Table) : Except String User × Table × List StoreCall :=
  match jsonUnmarshalUser req.body with
  | Except.error _ => (Except.error ErrorInvalidUserData, tbl, [])
  | Except.ok newUser =>
    if !validators.IsEmailValid newUser.email then
      (Except.error ErrorInvalidEmail, tbl, [])
    else
      let fetched := FetchUser f newUser.email tableName tbl
      let currUserExists : Bool :=
        match fetched.1 with
        | Except.ok currUser => currUser.email.length != 0
        | Except.error _ => false
      if currUserExists then
        (Except.error ErrorUserAlreadyExists, tbl, fetched.2)
      else
        let result := MarshalMap newUser
        match dynaPutItem f tbl result with
        | Except.error _ =>
          (Except.error ErrorCouldNotDynamoPutItem, tbl,
            fetched.2 ++ [StoreCall.putItem result])
        | Except.ok tbl2 =>
          (Except.ok newUser, tbl2, fetched.2 ++ [StoreCall.putItem result])

/-- Translation of `user.UpdateUser`.  A decode failure returns
`ErrorInvalidEmail` (the message the source reuses there); the guard
`currUser != nil && len(currUser.Email) == 0` is `currUserMissing`. -/
def UpdateUser (f : Faults) (req : APIGatewayProxyRequest) (tableName : String)
    (tbl : Table) : Except String User × Table × List StoreCall :=
  match jsonUnmarshalUser req.body with
  | Except.error _ => (Except.error ErrorInvalidEmail, tbl, [])
  | Except.ok newUser =>
    let fetched := FetchUser f newUser.email tableName tbl
    let currUserMissing : Bool :=
      match fetched.1 with
      | Except.ok currUser => currUser.email.length == 0
      | Except.error _ => false
    if currUserMissing then
      (Except.error ErrorUserDoesNotExist, tbl, fetched.2)
    else
      let result := MarshalMap newUser
      match dynaPutItem f tbl result with
      | Except.error _ =>
        (Except.error ErrorCouldNotDynamoPutItem, tbl,
          fetched.2 ++ [StoreCall.putItem result])
      | Except.ok tbl2 =>
        (Except.ok newUser, tbl2, fetched.2 ++ [StoreCall.putItem result])

/-- Translation of `user.DeleteUser`: an unconditional `DeleteItem` on
the `email` query parameter.  The Go `error` return is an
`Option String`. -/
def DeleteUser (f : Faults) (req : APIGatewayProxyRequest) (tableName : String)
    (tbl : Table) : Option String × Table × List StoreCall :=
  let email := mapGet req.queryStringParameters "email"
  match dynaDeleteItem f tbl email with
  | Except.error _ => (some ErrorCouldNotDeleteItem, tbl, [StoreCall.deleteItem email])
  | Except.ok tbl2 => (none, tbl2, [StoreCall.deleteItem email])

end user

namespace handlers

/-- Error string `ErrorMethodNotAllowed` of pkg/handlers/handlers.go. -/
def ErrorMethodNotAllowed : String := "method not allowed"

/-- Translation of `apiResponse` (pkg/handlers/api_response.go): builds
the response envelope and returns a nil Go error (modelled as `none`). -/
def apiResponse (status : Nat) (body : RespBody) :
    APIGatewayProxyResponse × Option String :=
  ({ statusCode := status, body := body }, none)

/-- Translation of `handlers.GetUser`: fetch one user when the `email`
query parameter is non-empty, otherwise scan all users; errors become a
400 response carrying the error message. -/
def GetUser (f : Faults) (req : APIGatewayProxyRequest) (tableName : String)
    (tbl : Table) :
    (APIGatewayProxyResponse × Option String) × Table × List StoreCall :=
  let email := mapGet req.queryStringParameters "email"
  if email.length > 0 then
    let fetched := user.FetchUser f email tableName tbl
    match fetched.1 with
    | Except.error e => (apiResponse http.StatusBadRequest (RespBody.err e), tbl, fetched.2)
    | Except.ok result => (apiResponse http.StatusOK (RespBody.user result), tbl, fetched.2)
  else
    let fetched := user.FetchUsers f tableName tbl
    match fetched.1 with
    | Except.error e => (apiResponse http.StatusBadRequest (RespBody.err e), tbl, fetched.2)
    | Except.ok result => (apiResponse http.StatusOK (RespBody.users result), tbl, fetched.2)

/-- Translation of `handlers.CreateUser`: wrap `user.CreateUser`,
201 on success, 400 with the error message on failure. -/
def CreateUser (f : Faults) (req : APIGatewayProxyRequest) (tableName : String)
    (tbl : Table) :
    (APIGatewayProxyResponse × Option String) × Table × List StoreCall :=
  let created := user.CreateUser f req tableName tbl
  match created.1 with
  | Except.error e =>
    (apiResponse http.StatusBadRequest (RespBody.err e), created.2.1, created.2.2)
  | Except.ok result =>
    (apiResponse http.StatusCreated (RespBody.user result), created.2.1, created.2.2)

/-- Translation of `handlers.UpdateUser`: wrap `user.UpdateUser`,
200 on success, 400 with the error message on failure. -/
def UpdateUser (f : Faults) (req : APIGatewayProxyRequest) (tableName : String)
    (tbl : Table) :
    (APIGatewayProxyResponse × Option String) × Table × List StoreCall :=
  let updated := user.UpdateUser f req tableName tbl
  match updated.1 with
  | Except.error e =>
    (apiResponse http.StatusBadRequest (RespBody.err e), updated.2.1, updated.2.2)
  | Except.ok result =>
    (apiResponse http.StatusOK (RespBody.user result), updated.2.1, updated.2.2)

/-- Translation of `handlers.DeleteUser`: wrap `user.DeleteUser`,
200 with a fixed success string, 400 with the error message on failure. -/
def DeleteUser (f : Faults) (req : APIGatewayProxyRequest) (tableName : String)
    (tbl : Table) :
    (APIGatewayProxyResponse × Option String) × Table × List StoreCall :=
  let deleted := user.DeleteUser f req tableName tbl
  match deleted.1 with
  | some e =>
    (apiResponse http.StatusBadRequest (RespBody.err e), deleted.2.1, deleted.2.2)
  | none =>
    (apiResponse http.StatusOK (RespBody.str "User deleted successfully"),
      deleted.2.1, deleted.2.2)

/-- Translation of `handlers.UnhandledMethod`: a fixed 405 response. -/
def UnhandledMethod : APIGatewayProxyResponse × Option String :=
  apiResponse http.StatusMethodNotAllowed (RespBody.str ErrorMethodNotAllowed)

end handlers

/-- Translation of `handler` (cmd/main.go): route on the HTTP method,
with a Go `switch` rendered as sequential equality tests.  The default
branch calls no operation handler and issues no store call. -/
def handler (f : Faults) (req : APIGatewayProxyRequest) (tableName : String)
    (tbl : Table) :
    (APIGatewayProxyResponse × Option String) × Table × List StoreCall :=
  if req.httpMethod = "GET" then handlers.GetUser f req tableName tbl
  else if req.httpMethod = "POST" then handlers.CreateUser f req tableName tbl
  else if req.httpMethod = "PUT" then handlers.UpdateUser f req tableName tbl
  else if req.httpMethod = "DELETE" then handlers.DeleteUser f req tableName tbl
  else (handlers.UnhandledMethod, tbl, [])

/-! Helper lemmas shared by the claim theorems. -/

/-- Unmarshalling a marshalled user gives the user back. -/
theorem unmarshalMap_marshalMap (u : User) : UnmarshalMap (MarshalMap u) = Except.ok u := by
  cases u
  rfl

/-- The partition key of a marshalled user is its email. -/
theorem itemKey_marshalMap (u : User) : itemKey (MarshalMap u) = u.email := rfl

/-- Unmarshalling the empty item (the DynamoDB answer for a missing
key) gives the zero-valued user. -/
theorem unmarshalMap_nil : UnmarshalMap [] = Except.ok ⟨"", "", ""⟩ := rfl

/-- A string the validator accepts is non-empty. -/
theorem isEmailValid_length_pos (s : String) (h : validators.IsEmailValid s = true) :
    0 < s.length := by
  by_contra hc
  push_neg at hc
  have h3 : s.length < 3 := by omega
  simp [validators.IsEmailValid, h3] at h

/-- A non-empty string has non-zero length. -/
theorem string_length_ne_zero (s : String) (h : s ≠ "") : s.length ≠ 0 := by
  cases s with
  | mk data =>
    intro hl
    apply h
    simp only [String.length_mk, List.length_eq_zero] at hl
    subst hl
    rfl

/-- C4: for every string with length below 3 or above 254 the validator
returns false, whatever the string's content. -/
theorem isEmailValid_false_of_bad_length (s : String)
    (h : s.length < 3 ∨ s.length > 254) :
    validators.IsEmailValid s = false := by
  rcases h with h | h <;> simp [validators.IsEmailValid, h]

/-- Witness for C4 at the concrete string "ab". -/
theorem isEmailValid_false_of_bad_length_witness :
    ("ab" : String).length < 3 ∧ validators.IsEmailValid "ab" = false :=
  ⟨by decide, isEmailValid_false_of_bad_length "ab" (Or.inl (by decide))⟩

/-- C3: a Create request whose body decodes to a user with an invalid
email returns a 400 response with message "invalid email", issues no
store call of any kind, and leaves the table unchanged. -/
theorem create_invalid_email_no_store_call (f : Faults) (u : User)
    (q : List (String × String)) (tn : String) (tbl : Table)
    (hval : validators.IsEmailValid u.email = false) :
    handlers.CreateUser f ⟨"POST", q, Body.valid u⟩ tn tbl
      = ((⟨http.StatusBadRequest, RespBody.err "invalid email"⟩, none), tbl, []) := by
  simp [handlers.CreateUser, user.CreateUser, jsonUnmarshalUser, hval,
    handlers.apiResponse, user.ErrorInvalidEmail, http.StatusBadRequest]

/-- Witness for C3 at the concrete user with email "not-an-email". -/
theorem create_invalid_email_no_store_call_witness :
    validators.IsEmailValid "not-an-email" = false ∧
    handlers.CreateUser noFaults ⟨"POST", [], Body.valid ⟨"not-an-email", "x", "y"⟩⟩ "t" []
      = ((⟨http.StatusBadRequest, RespBody.err "invalid email"⟩, none), [], []) :=
  ⟨by decide,
    create_invalid_email_no_store_call noFaults ⟨"not-an-email", "x", "y"⟩ [] "t" []
      (by decide)⟩

/-- C6: an Update request whose body fails to decode returns a 400
response whose message is exactly "invalid email" (the message the
source reuses from the email-validation failure), with no store call
and the table unchanged. -/
theorem update_decode_failure_message (f : Faults) (q : List (String × String))
    (tn : String) (tbl : Table) :
    handlers.UpdateUser f ⟨"PUT", q, Body.malformed⟩ tn tbl
      = ((⟨http.StatusBadRequest, RespBody.err "invalid email"⟩, none), tbl, []) := by
  simp [handlers.UpdateUser, user.UpdateUser, jsonUnmarshalUser,
    handlers.apiResponse, user.ErrorInvalidEmail, http.StatusBadRequest]

/-- C8: a request whose method is none of GET, POST, PUT, DELETE gets
the fixed 405 response with body "method not allowed", with no operation
handler invoked and no store call made. -/
theorem handler_unknown_method (f : Faults) (m : String) (q : List (String × String))
    (b : Body) (tn : String) (tbl : Table)
    (h1 : m ≠ "GET") (h2 : m ≠ "POST") (h3 : m ≠ "PUT") (h4 : m ≠ "DELETE") :
    handler f ⟨m, q, b⟩ tn tbl
      = ((⟨http.StatusMethodNotAllowed, RespBody.str "method not allowed"⟩, none), tbl, []) := by
  simp [handler, h1, h2, h3, h4, handlers.UnhandledMethod, handlers.apiResponse,
    handlers.ErrorMethodNotAllowed, http.StatusMethodNotAllowed]

/-- Witness for C8 at the concrete method "PATCH". -/
theorem handler_unknown_method_witness :
    handler noFaults ⟨"PATCH", [], Body.malformed⟩ "t" []
      = ((⟨http.StatusMethodNotAllowed, RespBody.str "method not allowed"⟩, none), [], []) :=
  handler_unknown_method noFaults "PATCH" [] Body.malformed "t" []
    (by decide) (by decide) (by decide) (by decide)

/-- C9: every operation handler returns a nil Go error; failures are
encoded only in the response status and body. -/
theorem handlers_always_nil_error (f : Faults) (req : APIGatewayProxyRequest)
    (tn : String) (tbl : Table) :
    (handlers.GetUser f req tn tbl).1.2 = none ∧
    (handlers.CreateUser f req tn tbl).1.2 = none ∧
    (handlers.UpdateUser f req tn tbl).1.2 = none ∧
    (handlers.DeleteUser f req tn tbl).1.2 = none ∧
    handlers.UnhandledMethod.2 = none := by
  refine ⟨?_, ?_, ?_, ?_, rfl⟩ <;>
    simp only [handlers.GetUser, handlers.CreateUser, handlers.UpdateUser,
      handlers.DeleteUser, handlers.apiResponse] <;>
    (repeat' split) <;> rfl

/-- C2 as stated is false: the duplicate check runs only after email
validation, so a user whose (invalid) email maps to a non-empty stored
record gets "invalid email", not "user already exists".  Concretely, for
email "ab" present in the table, Create answers "invalid email". -/
theorem create_duplicate_claim_cex :
    UnmarshalMap [("email", AttrValue.S "ab")] = Except.ok ⟨"ab", "", ""⟩ ∧
    ([("ab", [("email", AttrValue.S "ab")])] : Table).lookup "ab"
      = some [("email", AttrValue.S "ab")] ∧
    handlers.CreateUser noFaults ⟨"POST", [], Body.valid ⟨"ab", "x", "y"⟩⟩ "t"
        [("ab", [("email", AttrValue.S "ab")])]
      = ((⟨http.StatusBadRequest, RespBody.err "invalid email"⟩, none),
          [("ab", [("email", AttrValue.S "ab")])], []) ∧
    ("invalid email" : String) ≠ "user already exists" := by
  refine ⟨rfl, by decide, by decide, by decide⟩

/-- C2 (amended: the user's email moreover passes the validator): a
Create request for a user whose valid email maps to a record with a
non-empty email field returns 400 "user already exists", performs no
store write (only the existence-check get is issued) and leaves the
table unchanged. -/
theorem create_duplicate_rejected (f : Faults) (u cu : User)
    (q : List (String × String)) (tn : String) (tbl : Table) (item : Item)
    (hget : f.getErr = false)
    (hval : validators.IsEmailValid u.email = true)
    (hlook : tbl.lookup u.email = some item)
    (hcu : UnmarshalMap item = Except.ok cu)
    (hne : cu.email ≠ "") :
    handlers.CreateUser f ⟨"POST", q, Body.valid u⟩ tn tbl
      = ((⟨http.StatusBadRequest, RespBody.err "user already exists"⟩, none), tbl,
          [StoreCall.getItem u.email]) := by
  have hlen : cu.email.length ≠ 0 := string_length_ne_zero cu.email hne
  simp [handlers.CreateUser, user.CreateUser, jsonUnmarshalUser, hval,
    user.FetchUser, dynaGetItem, hget, hlook, hcu, hlen,
    handlers.apiResponse, user.ErrorUserAlreadyExists, http.StatusBadRequest]

/-- Witness for C2 (amended) at a concrete duplicate create. -/
theorem create_duplicate_rejected_witness :
    validators.IsEmailValid "a@b.co" = true ∧
    handlers.CreateUser noFaults ⟨"POST", [], Body.valid ⟨"a@b.co", "x", "y"⟩⟩ "t"
        [("a@b.co", MarshalMap ⟨"a@b.co", "p", "q"⟩)]
      = ((⟨http.StatusBadRequest, RespBody.err "user already exists"⟩, none),
          [("a@b.co", MarshalMap ⟨"a@b.co", "p", "q"⟩)],
          [StoreCall.getItem "a@b.co"]) :=
  ⟨by decide,
    create_duplicate_rejected noFaults ⟨"a@b.co", "x", "y"⟩ ⟨"a@b.co", "p", "q"⟩ [] "t"
      [("a@b.co", MarshalMap ⟨"a@b.co", "p", "q"⟩)] (MarshalMap ⟨"a@b.co", "p", "q"⟩)
      rfl (by decide) (by decide) rfl (by decide)⟩

/-- C10: when the existence-check fetch fails with a store error, Create
discards the error and proceeds: the record is put and the operation
returns 201 with the created user. -/
theorem create_ignores_fetch_error (f : Faults) (u : User)
    (q : List (String × String)) (tn : String) (tbl : Table)
    (hget : f.getErr = true) (hput : f.putErr = false)
    (hval : validators.IsEmailValid u.email = true) :
    handlers.CreateUser f ⟨"POST", q, Body.valid u⟩ tn tbl
      = ((⟨http.StatusCreated, RespBody.user u⟩, none),
          (u.email, MarshalMap u) :: tbl.eraseP (fun p => p.1 == u.email),
          [StoreCall.getItem u.email, StoreCall.putItem (MarshalMap u)]) := by
  simp [handlers.CreateUser, user.CreateUser, jsonUnmarshalUser, hval,
    user.FetchUser, dynaGetItem, hget, dynaPutItem, hput, itemKey_marshalMap,
    handlers.apiResponse, http.StatusCreated]

/-- Witness for C10 at a concrete create under a failing GetItem. -/
theorem create_ignores_fetch_error_witness :
    validators.IsEmailValid "a@b.co" = true ∧
    handlers.CreateUser ⟨true, false, false, false⟩
        ⟨"POST", [], Body.valid ⟨"a@b.co", "Ada", "L"⟩⟩ "t" []
      = ((⟨http.StatusCreated, RespBody.user ⟨"a@b.co", "Ada", "L"⟩⟩, none),
          [("a@b.co", MarshalMap ⟨"a@b.co", "Ada", "L"⟩)],
          [StoreCall.getItem "a@b.co", StoreCall.putItem (MarshalMap ⟨"a@b.co", "Ada", "L"⟩)]) :=
  ⟨by decide,
    create_ignores_fetch_error ⟨true, false, false, false⟩ ⟨"a@b.co", "Ada", "L"⟩ [] "t" []
      rfl rfl (by decide)⟩

/-- C1: creating a user with a valid email whose key is absent and then
getting by that email yields a 200 response carrying exactly the created
record. -/
theorem create_then_get_roundtrip (u : User) (tn : String) (tbl : Table)
    (q1 : List (String × String)) (b2 : Body)
    (hval : validators.IsEmailValid u.email = true)
    (habsent : tbl.lookup u.email = none) :
    (handlers.GetUser noFaults ⟨"GET", [("email", u.email)], b2⟩ tn
        (handlers.CreateUser noFaults ⟨"POST", q1, Body.valid u⟩ tn tbl).2.1).1.1
      = ⟨http.StatusOK, RespBody.user u⟩ := by
  have hpos : 0 < u.email.length := isEmailValid_length_pos u.email hval
  have hc : (handlers.CreateUser noFaults ⟨"POST", q1, Body.valid u⟩ tn tbl).2.1
      = (u.email, MarshalMap u) :: tbl.eraseP (fun p => p.1 == u.email) := by
    simp [handlers.CreateUser, user.CreateUser, jsonUnmarshalUser, hval,
      user.FetchUser, dynaGetItem, noFaults, habsent, dynaPutItem, itemKey_marshalMap,
      unmarshalMap_nil]
  rw [hc]
  simp [handlers.GetUser, mapGet, user.FetchUser, dynaGetItem, noFaults, hpos,
    List.lookup, unmarshalMap_marshalMap, handlers.apiResponse, http.StatusOK]

/-- Witness for C1 at a concrete user and the empty table. -/
theorem create_then_get_roundtrip_witness :
    validators.IsEmailValid "a@b.co" = true ∧
    (handlers.GetUser noFaults ⟨"GET", [("email", "a@b.co")], Body.malformed⟩ "t"
        (handlers.CreateUser noFaults
          ⟨"POST", [], Body.valid ⟨"a@b.co", "Ada", "L"⟩⟩ "t" []).2.1).1.1
      = ⟨http.StatusOK, RespBody.user ⟨"a@b.co", "Ada", "L"⟩⟩ :=
  ⟨by decide,
    create_then_get_roundtrip ⟨"a@b.co", "Ada", "L"⟩ "t" [] [] Body.malformed
      (by decide) rfl⟩

/-- C7 as stated is false on the message texts: the source error strings
name dynamodb, not "store".  Concretely, under a failing GetItem the
response message is "failed to fetch record from dynamodb", which is not
"failed to fetch record from store". -/
theorem getUser_error_message_cex :
    (handlers.GetUser ⟨true, false, false, false⟩
        ⟨"GET", [("email", "a@b.co")], Body.malformed⟩ "t" []).1.1
      = ⟨http.StatusBadRequest, RespBody.err "failed to fetch record from dynamodb"⟩ ∧
    ("failed to fetch record from dynamodb" : String)
      ≠ "failed to fetch record from store" := by
  refine ⟨by decide, by decide⟩

/-- C7 (amended to the source's message texts): on a Get with a
non-empty email parameter, a failing store get yields 400 with message
"failed to fetch record from dynamodb", and a fetched item that fails to
decode yields 400 with message
"failed to unmarshal record fetched from dynamodb". -/
theorem getUser_store_error_messages (e tn : String) (tbl : Table) (item : Item)
    (f1 f2 : Faults) (b : Body)
    (hpos : 0 < e.length)
    (hf1 : f1.getErr = true)
    (hf2 : f2.getErr = false)
    (hlook : tbl.lookup e = some item)
    (hbad : UnmarshalMap item = Except.error ()) :
    handlers.GetUser f1 ⟨"GET", [("email", e)], b⟩ tn tbl
      = ((⟨http.StatusBadRequest,
            RespBody.err "failed to fetch record from dynamodb"⟩, none),
          tbl, [StoreCall.getItem e]) ∧
    handlers.GetUser f2 ⟨"GET", [("email", e)], b⟩ tn tbl
      = ((⟨http.StatusBadRequest,
            RespBody.err "failed to unmarshal record fetched from dynamodb"⟩, none),
          tbl, [StoreCall.getItem e]) := by
  constructor <;>
    simp [handlers.GetUser, mapGet, hpos, user.FetchUser, dynaGetItem, hf1, hf2,
      hlook, hbad, handlers.apiResponse, user.ErrorFailedToFetchRecord,
      user.ErrorFailedToUnmarshalRecord, http.StatusBadRequest]

/-- Witness for C7 (amended) at a concrete email, a failing client and a
table holding a non-string email attribute. -/
theorem getUser_store_error_messages_witness :
    handlers.GetUser ⟨true, false, false, false⟩
        ⟨"GET", [("email", "a@b.co")], Body.malformed⟩ "t"
        [("a@b.co", [("email", AttrValue.N "5")])]
      = ((⟨http.StatusBadRequest,
            RespBody.err "failed to fetch record from dynamodb"⟩, none),
          [("a@b.co", [("email", AttrValue.N "5")])], [StoreCall.getItem "a@b.co"]) ∧
    handlers.GetUser noFaults
        ⟨"GET", [("email", "a@b.co")], Body.malformed⟩ "t"
        [("a@b.co", [("email", AttrValue.N "5")])]
      = ((⟨http.StatusBadRequest,
            RespBody.err "failed to unmarshal record fetched from dynamodb"⟩, none),
          [("a@b.co", [("email", AttrValue.N "5")])], [StoreCall.getItem "a@b.co"]) :=
  getUser_store_error_messages "a@b.co" "t" [("a@b.co", [("email", AttrValue.N "5")])]
    [("email", AttrValue.N "5")] ⟨true, false, false, false⟩ noFaults Body.malformed
    (by decide) rfl rfl (by decide) rfl

/-! Lemmas about `List.intercalate` used for the validator claim. -/

/-- Intercalating a single chunk is that chunk. -/
theorem intercalate_single {α : Type} (x : α) (l : List α) :
    List.intercalate [x] [l] = l := by
  simp [List.intercalate]

/-- Intercalating two or more chunks peels off the first chunk and one
separator. -/
theorem intercalate_pair {α : Type} (x : α) (l1 l2 : List α) (rest : List (List α)) :
    List.intercalate [x] (l1 :: l2 :: rest) = l1 ++ x :: List.intercalate [x] (l2 :: rest) := by
  simp [List.intercalate]

/-- An element of an intercalation is the separator or lies in a chunk. -/
theorem mem_intercalate_imp {α : Type} (x : α) :
    ∀ (ls : List (List α)) (c : α), c ∈ List.intercalate [x] ls →
      c = x ∨ ∃ l ∈ ls, c ∈ l
  | [], c, h => by simp [List.intercalate] at h
  | [l], c, h => by
    rw [intercalate_single] at h
    exact Or.inr ⟨l, by simp, h⟩
  | l1 :: l2 :: rest, c, h => by
    rw [intercalate_pair] at h
    rcases List.mem_append.mp h with h1 | h2
    · exact Or.inr ⟨l1, by simp, h1⟩
    · rcases List.mem_cons.mp h2 with rfl | h3
      · exact Or.inl rfl
      · rcases mem_intercalate_imp x (l2 :: rest) c h3 with h4 | ⟨l, hl, hc⟩
        · exact Or.inl h4
        · exact Or.inr ⟨l, List.mem_cons_of_mem _ hl, hc⟩

/-- An intercalation starting from a non-empty chunk is non-empty. -/
theorem intercalate_cons_ne_nil {α : Type} (x : α) (hd : List α) (tl : List (List α))
    (hhd : hd ≠ []) : List.intercalate [x] (hd :: tl) ≠ [] := by
  cases tl with
  | nil => simpa [intercalate_single] using hhd
  | cons l2 rest => simp [intercalate_pair]

/-- The last element (with default) of a non-empty list is a member. -/
theorem getLastD_mem {α : Type} : ∀ (l : List α) (d : α), l ≠ [] → l.getLastD d ∈ l
  | [a], _, _ => by simp [List.getLastD]
  | a :: b :: t, d, _ => by
    rw [List.getLastD_cons]
    exact List.mem_cons_of_mem a (getLastD_mem (b :: t) a (by simp))

/-- A label of the shape claimed in the specification is accepted by the
label matcher compiled from the source regex. -/
theorem specLabelOk_labelMatches (l : List Char)
    (h : validators.specLabelOk l = true) : validators.labelMatches l = true := by
  cases l with
  | nil => simp [validators.specLabelOk] at h
  | cons c rest =>
    simp only [validators.specLabelOk, Bool.and_eq_true, decide_eq_true_eq,
      List.all_eq_true, bne_iff_ne, ne_eq, List.headD_cons] at h
    obtain ⟨⟨⟨⟨h1, h63⟩, hall⟩, hhead⟩, hlast⟩ := h
    have hc : c.isAlphanum = true := by
      have hmem := hall c (List.mem_cons_self c rest)
      rcases Bool.or_eq_true_iff.mp hmem with hok | hbad
      · exact hok
      · exact absurd (eq_of_beq hbad) hhead
    cases rest with
    | nil => simp [validators.labelMatches, hc]
    | cons r rs =>
      rw [List.getLastD_cons] at hlast
      have hlastmem : (r :: rs).getLastD c ∈ (r :: rs) :=
        getLastD_mem (r :: rs) c (by simp)
      have hlastan : ((r :: rs).getLastD c).isAlphanum = true := by
        have hmem := hall _ (List.mem_cons_of_mem c hlastmem)
        rcases Bool.or_eq_true_iff.mp hmem with hok | hbad
        · exact hok
        · exact absurd (eq_of_beq hbad) hlast
      have hdrop : (r :: rs).dropLast.all validators.isLabelChar = true := by
        rw [List.all_eq_true]
        intro a ha
        exact hall a (List.mem_cons_of_mem c (List.dropLast_subset _ ha))
      have hlen61 : rs.length ≤ 61 := by
        simp only [List.length_cons] at h63
        omega
      simp [validators.labelMatches, hc, hdrop]
      refine ⟨hlen61, ?_⟩
      simpa [List.getLastD_eq_getLast?] using hlastan

/-- C5 as stated is false: the claim constrains only the domain labels,
but the regex also constrains the local part.  The string "(@a" has the
claimed form with local part "(" and the single valid label "a", yet the
validator rejects it. -/
theorem email_wellformed_claim_cex :
    ("(@a" : String) = "(" ++ "@" ++ "a" ∧
    validators.specLabelOk ['a'] = true ∧
    validators.IsEmailValid "(@a" = false := by
  refine ⟨rfl, by decide, by decide⟩

/-- C5 (amended: the local part must consist of 1 to 64 characters of
the regex's local character class, and the whole string must be at most
254 characters long): every such `localpart@label(.label)*` string is
accepted by the validator. -/
theorem email_wellformed_accepted (lp : List Char) (labels : List (List Char))
    (hlp1 : 1 ≤ lp.length) (hlp64 : lp.length ≤ 64)
    (hlpc : ∀ c ∈ lp, validators.isLocalChar c = true)
    (hne : labels ≠ [])
    (hlab : ∀ l ∈ labels, validators.specLabelOk l = true)
    (hlen : (String.mk (lp ++ '@' :: List.intercalate ['.'] labels)).length ≤ 254) :
    validators.IsEmailValid (String.mk (lp ++ '@' :: List.intercalate ['.'] labels)) = true := by
  set dom := List.intercalate ['.'] labels with hdom
  have hlpnot : ∀ c ∈ lp, ¬((c == '@') = true) := by
    intro c hc hbeq
    have hl := hlpc c hc
    rw [eq_of_beq hbeq] at hl
    exact absurd hl (by decide)
  have hlabchar : ∀ l ∈ labels, ∀ c ∈ l, validators.isLabelChar c = true := by
    intro l hl c hc
    have h := hlab l hl
    simp only [validators.specLabelOk, Bool.and_eq_true, List.all_eq_true] at h
    exact h.1.1.2 c hc
  have hdomnot : ∀ c ∈ dom, ¬((c == '@') = true) := by
    intro c hc hbeq
    rcases mem_intercalate_imp '.' labels c hc with rfl | ⟨l, hl, hcl⟩
    · exact absurd (eq_of_beq hbeq) (by decide)
    · have h := hlabchar l hl c hcl
      rw [eq_of_beq hbeq] at h
      exact absurd h (by decide)
  have hsplit : (lp ++ '@' :: dom).splitOn '@' = [lp, dom] := by
    rw [List.splitOn, List.splitOnP_first _ _ hlpnot '@' (by simp),
      List.splitOnP_eq_single _ _ hdomnot]
  have hdots : ∀ l ∈ labels, '.' ∉ l := by
    intro l hl hdot
    have h := hlabchar l hl '.' hdot
    exact absurd h (by decide)
  have hsplit2 : dom.splitOn '.' = labels := List.splitOn_intercalate labels '.' hdots hne
  have hall : labels.all validators.labelMatches = true := by
    rw [List.all_eq_true]
    intro l hl
    exact specLabelOk_labelMatches l (hlab l hl)
  have hdomne : dom ≠ [] := by
    cases labels with
    | nil => exact absurd rfl hne
    | cons hd tl =>
      apply intercalate_cons_ne_nil
      have h := hlab hd (by simp)
      simp only [validators.specLabelOk, Bool.and_eq_true, decide_eq_true_eq] at h
      intro hnil
      rw [hnil] at h
      simp at h
  have hdlen : 1 ≤ dom.length := by
    cases hd : dom with
    | nil => exact absurd hd hdomne
    | cons _ _ => simp
  have hlength : (String.mk (lp ++ '@' :: dom)).length = lp.length + 1 + dom.length := by
    simp [String.length_mk, List.length_append, List.length_cons]
    omega
  have hmatch : validators.rxEmailMatches (lp ++ '@' :: dom) = true := by
    rw [validators.rxEmailMatches, hsplit]
    simp only [hsplit2]
    simp [hlp1, hlp64, List.all_eq_true, hall]
    exact hlpc
  have c1 : ¬((String.mk (lp ++ '@' :: dom)).length < 3) := by
    rw [hlength]
    omega
  have c2 : ¬((String.mk (lp ++ '@' :: dom)).length > 254) := hlen.not_lt
  rw [validators.IsEmailValid]
  have hdata : (String.mk (lp ++ '@' :: dom)).data = lp ++ '@' :: dom := rfl
  have hlen2 : lp.length + 1 + dom.length ≤ 254 := hlength ▸ hlen
  simp [hdata, hmatch, c1, c2]
  omega

/-- Witness for C5 (amended) at the concrete well-formed email
"a@b.co", assembled from its local part and labels. -/
theorem email_wellformed_accepted_witness :
    validators.IsEmailValid
      (String.mk (['a'] ++ '@' :: List.intercalate ['.'] [['b'], ['c', 'o']])) = true :=
  email_wellformed_accepted ['a'] [['b'], ['c', 'o']] (by decide) (by decide)
    (by decide) (by decide) (by decide) (by decide)
